import Mathlib

/-!
Verification of the rusted_pipe core: a shallow embedding of the
multi-channel packet buffer (`src/buffers/btree_data_buffers.rs`), of the
channel data model (`src/channels/mod.rs`), and of the consumer-thread
dispatch logic (`src/graph/runtime.rs`), together with theorems settling
the specification claims about them.

Mutable `&mut self` methods are embedded in state-passing style: a method
that can fail returns `Except BufferError (result × newState)`; on an
error the caller keeps the old state, which mirrors the Rust code paths
that return early without mutating.
-/

namespace RustedPipe

/-- Channel identity: equality and hashing by the underlying string only
(`ChannelID { id: String }` in `src/channels/mod.rs`). -/
abbrev ChannelID := String

/-- Version tag `DataVersion { timestamp: u64 }`: a totally ordered version tag.  The
buffer code only compares versions (never does arithmetic on them), so the
`u64` is embedded as `Nat`. -/
abbrev DataVersion := Nat

/-- Packet type `UntypedPacket { version, payload }`.  The runtime never inspects the
payload, so the opaque blob is embedded as a `Nat` tag. -/
structure UntypedPacket where
  version : DataVersion
  payload : Nat
deriving DecidableEq, Repr

/-- Address pair `PacketBufferAddress = (ChannelID, DataVersion)`. -/
abbrev PacketBufferAddress := ChannelID × DataVersion

/-- The `BufferError` variants used by `btree_data_buffers.rs`:
`InternalError(String)` for a missing channel, `DuplicateDataVersionError`
for a version already present, `DuplicateChannelError` for a repeated
`create_channel`. -/
inductive BufferError where
  | InternalError (msg : String)
  | DuplicateDataVersionError (addr : PacketBufferAddress)
  | DuplicateChannelError (channel : ChannelID)
deriving DecidableEq, Repr

/-- Modelled from the spec: the default capacity used by
`FixedSizeBTree::default()` (the crate module `buffers::single_buffers` is
not part of the three core source files).  The spec only records that the
multi-channel buffer's `max_size` is *not* propagated and "the default is
used"; the claims depend only on this being a fixed constant independent
of the multi-channel buffer's `max_size`, and we fix it at 1000. -/
def defaultMaxSize : Nat := 1000

/-- Modelled from the spec: the single-channel ordered buffer
`FixedSizeBTree` of `buffers::single_buffers` (not among the core source
files), spec section 4.B: an ordered mapping version → packet with
capacity `max_size`.  The `BTreeMap` is embedded as a list of
`(version, packet)` pairs kept sorted by strictly increasing version. -/
structure FixedSizeBTree where
  data : List (DataVersion × UntypedPacket)
  max_size : Nat
deriving DecidableEq, Repr

/-- Modelled from the spec: `FixedSizeBTree::default()` — an empty buffer
with the library default capacity. -/
def FixedSizeBTree.default : FixedSizeBTree :=
  { data := [], max_size := defaultMaxSize }

/-- Modelled from the spec: `FixedSizeBTree::new(max_size)`. -/
def FixedSizeBTree.new (max_size : Nat) : FixedSizeBTree :=
  { data := [], max_size := max_size }

/-- Modelled from the spec: `contains_key(v)` of the single-channel
buffer. -/
def FixedSizeBTree.contains_key (t : FixedSizeBTree) (v : DataVersion) : Bool :=
  t.data.any (fun kv => kv.1 == v)

/-- Modelled from the spec: `get(v) → Option<&p>`, a point read that does
not mutate. -/
def FixedSizeBTree.get (t : FixedSizeBTree) (v : DataVersion) : Option UntypedPacket :=
  (t.data.find? (fun kv => kv.1 == v)).map (fun kv => kv.2)

/-- Modelled from the spec: `remove(v) → Option<p>` removes and returns
the entry at `v`. -/
def FixedSizeBTree.remove (t : FixedSizeBTree) (v : DataVersion) :
    Option UntypedPacket × FixedSizeBTree :=
  (t.get v, { t with data := t.data.filter (fun kv => kv.1 != v) })

/-- Modelled from the spec: `cleanup_before(v)` erases all entries with
version strictly less than `v`. -/
def FixedSizeBTree.cleanup_before (t : FixedSizeBTree) (v : DataVersion) : FixedSizeBTree :=
  { t with data := t.data.filter (fun kv => decide (v ≤ kv.1)) }

/-- Insertion into the sorted association list underlying the `BTreeMap`:
keeps keys strictly increasing, overwriting an equal key (`BTreeMap::insert`
semantics; the multi-channel buffer only calls it on fresh keys). -/
def insertSorted (v : DataVersion) (p : UntypedPacket) :
    List (DataVersion × UntypedPacket) → List (DataVersion × UntypedPacket)
  | [] => [(v, p)]
  | (k, q) :: rest =>
    if v < k then (v, p) :: (k, q) :: rest
    else if v == k then (v, p) :: rest
    else (k, q) :: insertSorted v p rest

/-- Modelled from the spec: `insert(v, p)` of the single-channel buffer —
inserts, and when the size exceeds `max_size` evicts the smallest-version
entries until the capacity bound holds ("overflow policy is drop-oldest";
the sorted list's head is the smallest version). -/
def FixedSizeBTree.insert (t : FixedSizeBTree) (v : DataVersion) (p : UntypedPacket) :
    FixedSizeBTree :=
  let d := insertSorted v p t.data
  { t with data := if t.max_size < d.length then d.drop (d.length - t.max_size) else d }

/-- Multi-channel buffer `BtreeBufferedData { data: HashMap<ChannelID, FixedSizeBTree>, max_size }`
(`btree_data_buffers.rs`, lines 15–18).  The `HashMap` is embedded as an
association list with pairwise distinct keys. -/
structure BtreeBufferedData where
  data : List (ChannelID × FixedSizeBTree)
  max_size : Nat
deriving DecidableEq, Repr

/-- Constructor `BtreeBufferedData::new(max_size)` (lines 21–26). -/
def BtreeBufferedData.new (max_size : Nat) : BtreeBufferedData :=
  { data := [], max_size := max_size }

/-- Lookup (`HashMap::get`) on the channel map. -/
def BtreeBufferedData.findChannel (b : BtreeBufferedData) (c : ChannelID) :
    Option FixedSizeBTree :=
  (b.data.find? (fun kv => kv.1 == c)).map (fun kv => kv.2)

/-- Membership test (`HashMap::contains_key`) on the channel map. -/
def BtreeBufferedData.containsChannel (b : BtreeBufferedData) (c : ChannelID) : Bool :=
  b.data.any (fun kv => kv.1 == c)

/-- Updating the channel map at key `c` (in place when present, appended
when absent), preserving all other bindings. -/
def setAssoc (c : ChannelID) (t : FixedSizeBTree) :
    List (ChannelID × FixedSizeBTree) → List (ChannelID × FixedSizeBTree)
  | [] => [(c, t)]
  | (k, u) :: rest => if k == c then (c, t) :: rest else (k, u) :: setAssoc c t rest

/-- State after overwriting channel `c` with buffer `t`. -/
def BtreeBufferedData.setChannel (b : BtreeBufferedData) (c : ChannelID)
    (t : FixedSizeBTree) : BtreeBufferedData :=
  { b with data := setAssoc c t b.data }

/-- Query `has_version(channel, version)` (lines 98–100): the channel exists and
its buffer contains the version. -/
def BtreeBufferedData.has_version (b : BtreeBufferedData) (c : ChannelID)
    (v : DataVersion) : Bool :=
  match b.findChannel c with
  | some t => t.contains_key v
  | none => false

/-- The error produced by `get_channel` for a missing channel
(lines 28–36): `InternalError(format!("Cannod find channel {}", channel.id))`. -/
def missingChannelError (c : ChannelID) : BufferError :=
  BufferError.InternalError ("Cannod find channel " ++ c)

/-- Method `get_or_create_channel(channel)` (lines 38–43):
`entry(channel).or_insert(FixedSizeBTree::default())` — note it inserts the
*default* buffer, ignoring `self.max_size`.  Returns the channel's buffer
and the updated state. -/
def BtreeBufferedData.get_or_create_channel (b : BtreeBufferedData) (c : ChannelID) :
    FixedSizeBTree × BtreeBufferedData :=
  match b.findChannel c with
  | some t => (t, b)
  | none => (FixedSizeBTree.default, b.setChannel c FixedSizeBTree.default)

/-- Method `DataBuffer::insert(channel, packet)` (lines 46–62): duplicate-version
check first, then channel lookup (error when missing), then insertion into
the per-channel buffer; returns the packet's address. -/
def BtreeBufferedData.insert (b : BtreeBufferedData) (c : ChannelID)
    (packet : UntypedPacket) :
    Except BufferError (PacketBufferAddress × BtreeBufferedData) :=
  if b.has_version c packet.version then
    .error (BufferError.DuplicateDataVersionError (c, packet.version))
  else
    match b.findChannel c with
    | none => .error (missingChannelError c)
    | some t => .ok ((c, packet.version), b.setChannel c (t.insert packet.version packet))

/-- Method `DataBuffer::consume(version)` (lines 64–71): `remove` at the address's
version on its channel, then `cleanup_before` the same version on the
(re-fetched) channel; returns the removed packet. -/
def BtreeBufferedData.consume (b : BtreeBufferedData) (addr : PacketBufferAddress) :
    Except BufferError (Option UntypedPacket × BtreeBufferedData) :=
  match b.findChannel addr.1 with
  | none => .error (missingChannelError addr.1)
  | some t =>
    let r := t.remove addr.2
    let b1 := b.setChannel addr.1 r.2
    match b1.findChannel addr.1 with
    | none => .error (missingChannelError addr.1)
    | some t1 => .ok (r.1, b1.setChannel addr.1 (t1.cleanup_before addr.2))

/-- Method `DataBuffer::get(version)` (lines 73–78): point read through
`get_channel`; the state is returned unchanged (the Rust body never
mutates through its `&mut self`). -/
def BtreeBufferedData.get (b : BtreeBufferedData) (addr : PacketBufferAddress) :
    Except BufferError (Option UntypedPacket × BtreeBufferedData) :=
  match b.findChannel addr.1 with
  | none => .error (missingChannelError addr.1)
  | some t => .ok (t.get addr.2, b)

/-- Method `DataBuffer::create_channel(channel)` (lines 88–94): error when the
channel already exists, else `get_or_create_channel`. -/
def BtreeBufferedData.create_channel (b : BtreeBufferedData) (c : ChannelID) :
    Except BufferError (ChannelID × BtreeBufferedData) :=
  if b.containsChannel c then
    .error (BufferError.DuplicateChannelError c)
  else
    .ok (c, (b.get_or_create_channel c).2)

/-! ### Consumer-thread dispatch (`src/graph/runtime.rs`) -/

/-- Worker lifecycle status `WorkerStatus` (`graph.rs`, used by `runtime.rs`). -/
inductive WorkerStatus where
  | Idle
  | Running
  | Terminating
deriving DecidableEq, Repr

/-- Graph lifecycle status `GraphStatus`. -/
inductive GraphStatus where
  | Running
  | WaitingForDataToTerminate
  | Terminating
deriving DecidableEq, Repr

/-- The outcome of one processor invocation (`Result<(), RustedPipeError>`
as matched in `runtime.rs`, lines 141–152): `Ok`, the `EndOfStream`
sentinel, or any other error. -/
inductive ProcessorResult where
  | ok
  | endOfStream
  | otherError (msg : String)
deriving DecidableEq, Repr

/-- The outcome of awaiting the thread-pool task (`try_await_complete`,
lines 156–162): the task ran the processor to completion, or it panicked
(in which case none of the closure's status stores happened). -/
inductive TaskOutcome where
  | completed (r : ProcessorResult)
  | panicked
deriving DecidableEq, Repr

/-- Effect of one consumer-thread dispatch (`runtime.rs`, lines 129–162):
the worker status after the dispatch, and the node ids sent on the done
channel during it.  `Ok` stores `Idle`; `EndOfStream` stores `Terminating`
and sends `done(id)`; any other error logs and stores `Terminating`
without sending; a panic skips the closure's stores and the consumer
resets the status to `Idle`. -/
def dispatch (id : String) (outcome : TaskOutcome) : WorkerStatus × List String :=
  match outcome with
  | .completed .ok => (WorkerStatus.Idle, [])
  | .completed .endOfStream => (WorkerStatus.Terminating, [id])
  | .completed (.otherError _) => (WorkerStatus.Terminating, [])
  | .panicked => (WorkerStatus.Idle, [])

/-- Result of pulling from the work queue with timeout
(`work_queue.get(Some(100ms))`, line 105). -/
inductive QueuePull where
  | item (packet : Nat)
  | timeout
deriving DecidableEq, Repr

/-- Consumer-side state threaded through the `consume` loop: the worker
status atomic and the node ids sent on the done channel so far. -/
structure ConsumeState where
  worker : WorkerStatus
  done_sent : List String
deriving DecidableEq, Repr

/-- One iteration of the `ConsumerThread::consume` loop (`runtime.rs`,
lines 99–169), parametrised by the observed graph status, the work-queue
pull result (`none` models a Source node with no work queue) and the
thread-pool task outcome.  When the graph is `Terminating` the loop body
does not run; when the worker is `Idle` a timed-out pull sends `done(id)`
during drain and continues, otherwise a task is dispatched; when the
worker is not `Idle` the thread sleeps and sends `done(id)` during
drain. -/
def consumeIteration (id : String) (graph : GraphStatus) (s : ConsumeState)
    (pull : Option QueuePull) (outcome : TaskOutcome) : ConsumeState :=
  if graph = GraphStatus.Terminating then s
  else if s.worker = WorkerStatus.Idle then
    match pull with
    | some QueuePull.timeout =>
      if graph = GraphStatus.WaitingForDataToTerminate then
        { s with done_sent := s.done_sent ++ [id] }
      else s
    | _ =>
      let r := dispatch id outcome
      { worker := r.1, done_sent := s.done_sent ++ r.2 }
  else
    if graph = GraphStatus.WaitingForDataToTerminate then
      { s with done_sent := s.done_sent ++ [id] }
    else s

/-! ### Association-list lemmas for the channel map -/

theorem setAssoc_find_self (c : ChannelID) (t : FixedSizeBTree)
    (l : List (ChannelID × FixedSizeBTree)) :
    (setAssoc c t l).find? (fun kv => kv.1 == c) = some (c, t) := by
  induction l with
  | nil => simp [setAssoc]
  | cons a l ih =>
    obtain ⟨k, u⟩ := a
    by_cases h : k = c
    · subst h
      simp [setAssoc]
    · simp [setAssoc, h, List.find?, ih]

theorem setAssoc_find_other (c c' : ChannelID) (hne : c' ≠ c) (t : FixedSizeBTree)
    (l : List (ChannelID × FixedSizeBTree)) :
    (setAssoc c t l).find? (fun kv => kv.1 == c') = l.find? (fun kv => kv.1 == c') := by
  have hcc : (c == c') = false := beq_eq_false_iff_ne.mpr (Ne.symm hne)
  induction l with
  | nil => simp [setAssoc, List.find?, hcc]
  | cons a l ih =>
    obtain ⟨k, u⟩ := a
    by_cases h : k = c
    · have hk : (k == c') = false := by rw [h]; exact hcc
      simp [setAssoc, h, List.find?, hcc, hk]
    · cases hkc : (k == c') with
      | true => simp [setAssoc, h, List.find?, hkc]
      | false => simp [setAssoc, h, List.find?, hkc, ih]

theorem findChannel_setChannel_self (b : BtreeBufferedData) (c : ChannelID)
    (t : FixedSizeBTree) : (b.setChannel c t).findChannel c = some t := by
  simp [BtreeBufferedData.findChannel, BtreeBufferedData.setChannel, setAssoc_find_self]

theorem findChannel_setChannel_other (b : BtreeBufferedData) (c c' : ChannelID)
    (hne : c' ≠ c) (t : FixedSizeBTree) :
    (b.setChannel c t).findChannel c' = b.findChannel c' := by
  simp [BtreeBufferedData.findChannel, BtreeBufferedData.setChannel,
    setAssoc_find_other c c' hne]

theorem findChannel_none_of_not_contains (b : BtreeBufferedData) (c : ChannelID)
    (h : b.containsChannel c = false) : b.findChannel c = none := by
  rw [BtreeBufferedData.containsChannel] at h
  rw [BtreeBufferedData.findChannel]
  have hf : b.data.find? (fun kv => kv.1 == c) = none := by
    rw [List.find?_eq_none]
    intro x hx
    have hx2 := (List.any_eq_false.mp h) x hx
    simpa using hx2
  rw [hf]
  rfl

theorem containsChannel_of_findChannel_some (b : BtreeBufferedData) (c : ChannelID)
    (t : FixedSizeBTree) (h : b.findChannel c = some t) :
    b.containsChannel c = true := by
  rw [BtreeBufferedData.findChannel] at h
  rw [BtreeBufferedData.containsChannel]
  cases hf : b.data.find? (fun kv => kv.1 == c) with
  | none => rw [hf] at h; cases h
  | some x =>
    have hx : x ∈ b.data := List.mem_of_find?_eq_some hf
    have hp := List.find?_some hf
    exact List.any_eq_true.mpr ⟨x, hx, by simpa using hp⟩

/-- Lemma: `find?` is unchanged by a `filter` whose predicate holds wherever the
search predicate does. -/
theorem find_filter_comm {α : Type} (p q : α → Bool) (l : List α)
    (h : ∀ x, p x = true → q x = true) :
    (l.filter q).find? p = l.find? p := by
  induction l with
  | nil => rfl
  | cons a l ih =>
    cases hq : q a with
    | false =>
      have hp : p a = false := by
        cases hpa : p a with
        | false => rfl
        | true => rw [h a hpa] at hq; cases hq
      simp [List.filter_cons, hq, List.find?, hp, ih]
    | true =>
      cases hp : p a with
      | true => simp [List.filter_cons, hq, List.find?, hp]
      | false => simp [List.filter_cons, hq, List.find?, hp, ih]

/-! ### C9: get does not mutate -/

/-- Iterated reads: `N` successive `get` calls at the same address, threading the returned
state through; yields the list of results and the final state. -/
def getRuns (addr : PacketBufferAddress) :
    Nat → BtreeBufferedData → List (Option UntypedPacket) × BtreeBufferedData
  | 0, b => ([], b)
  | n + 1, b =>
    match b.get addr with
    | .ok (r, b1) =>
      let rest := getRuns addr n b1
      (r :: rest.1, rest.2)
    | .error _ => ([], b)

/-- C9: for every created channel `c` and version `v`, `get((c, v))`
returns the state unchanged, and `N` successive `get` calls all return the
same result (the point read of the channel's buffer) and leave the state —
hence `has_version` — exactly as it was. -/
theorem get_reads_without_mutation (b : BtreeBufferedData) (c : ChannelID)
    (v : DataVersion) (t : FixedSizeBTree) (n : Nat)
    (h : b.findChannel c = some t) :
    b.get (c, v) = .ok (t.get v, b) ∧
    getRuns (c, v) n b = (List.replicate n (t.get v), b) := by
  have h1 : b.get (c, v) = .ok (t.get v, b) := by
    simp [BtreeBufferedData.get, h]
  refine ⟨h1, ?_⟩
  induction n with
  | zero => rfl
  | succ n ih =>
    rw [getRuns, h1]
    simp [ih, List.replicate_succ]

/-- C9 witness: two successive reads of version 1 on a channel holding one
packet. -/
theorem get_reads_without_mutation_witness :
    (BtreeBufferedData.mk [("ch0", FixedSizeBTree.mk [(1, ⟨1, 7⟩)] 1000)] 20).get
        ("ch0", 1)
      = .ok ((FixedSizeBTree.mk [(1, ⟨1, 7⟩)] 1000).get 1,
        BtreeBufferedData.mk [("ch0", FixedSizeBTree.mk [(1, ⟨1, 7⟩)] 1000)] 20) ∧
    getRuns ("ch0", 1) 2
        (BtreeBufferedData.mk [("ch0", FixedSizeBTree.mk [(1, ⟨1, 7⟩)] 1000)] 20)
      = (List.replicate 2 ((FixedSizeBTree.mk [(1, ⟨1, 7⟩)] 1000).get 1),
        BtreeBufferedData.mk [("ch0", FixedSizeBTree.mk [(1, ⟨1, 7⟩)] 1000)] 20) :=
  get_reads_without_mutation
    (BtreeBufferedData.mk [("ch0", FixedSizeBTree.mk [(1, ⟨1, 7⟩)] 1000)] 20)
    "ch0" 1 (FixedSizeBTree.mk [(1, ⟨1, 7⟩)] 1000) 2 rfl

/-! ### C2: consume removes the version and everything below it -/

/-- C2: for every created channel `c` (with buffer `t`) and version `v`,
when `consume((c, v))` returns `Ok(r, b')`: `r` is the packet previously
stored at `(c, v)` (or `None`); afterwards `get((c, v'))` returns
`Ok(None)` for every `v' ≤ v`; and for every `v' > v` the channel's entry
is untouched — `get((c, v'))` returns exactly what it returned before. -/
theorem consume_cleanup (b b' : BtreeBufferedData) (c : ChannelID) (v : DataVersion)
    (t : FixedSizeBTree) (r : Option UntypedPacket)
    (h : b.findChannel c = some t)
    (hc : b.consume (c, v) = .ok (r, b')) :
    r = t.get v ∧
    (∀ v', v' ≤ v → b'.get (c, v') = .ok (none, b')) ∧
    (∀ v', v < v' → b'.get (c, v') = .ok (t.get v', b')) := by
  have h1 : b.consume (c, v)
      = .ok ((t.remove v).1,
        (b.setChannel c (t.remove v).2).setChannel c
          (((t.remove v).2).cleanup_before v)) := by
    rw [BtreeBufferedData.consume]
    simp only [h, findChannel_setChannel_self]
  rw [h1] at hc
  simp only [Except.ok.injEq, Prod.mk.injEq] at hc
  obtain ⟨hr, hb'⟩ := hc
  subst hb'
  subst hr
  have hfind : ((b.setChannel c (t.remove v).2).setChannel c
      (((t.remove v).2).cleanup_before v)).findChannel c
      = some (((t.remove v).2).cleanup_before v) :=
    findChannel_setChannel_self _ c _
  refine ⟨rfl, ?_, ?_⟩
  · intro v' hv'
    have hget : (((t.remove v).2).cleanup_before v).get v' = none := by
      rw [FixedSizeBTree.get]
      have hnone : ((((t.remove v).2).cleanup_before v).data.find?
          (fun kv => kv.1 == v')) = none := by
        rw [List.find?_eq_none]
        intro x hx
        rw [FixedSizeBTree.cleanup_before] at hx
        simp only [List.mem_filter] at hx
        obtain ⟨hx1, hx2⟩ := hx
        rw [FixedSizeBTree.remove] at hx1
        simp only [List.mem_filter] at hx1
        obtain ⟨_, hxne⟩ := hx1
        have h1 : x.1 ≠ v := by simpa using hxne
        have h2 : v ≤ x.1 := by simpa using hx2
        have h3 : v < x.1 := lt_of_le_of_ne h2 (Ne.symm h1)
        simp only [beq_iff_eq]
        intro hcontra
        rw [hcontra] at h3
        exact absurd hv' (not_le.mpr h3)
      rw [hnone]
      rfl
    simp [BtreeBufferedData.get, hfind, hget]
  · intro v' hv'
    have hget : (((t.remove v).2).cleanup_before v).get v' = t.get v' := by
      rw [FixedSizeBTree.get, FixedSizeBTree.get, FixedSizeBTree.cleanup_before,
        FixedSizeBTree.remove]
      have e1 : ((t.data.filter (fun kv => kv.1 != v)).filter
            (fun kv => decide (v ≤ kv.1))).find? (fun kv => kv.1 == v')
          = (t.data.filter (fun kv => kv.1 != v)).find? (fun kv => kv.1 == v') := by
        apply find_filter_comm
        intro x hx
        have hx1 : x.1 = v' := by simpa using hx
        simpa [hx1] using le_of_lt hv'
      have e2 : (t.data.filter (fun kv => kv.1 != v)).find? (fun kv => kv.1 == v')
          = t.data.find? (fun kv => kv.1 == v') := by
        apply find_filter_comm
        intro x hx
        have hx1 : x.1 = v' := by simpa using hx
        simp [hx1]
        exact ne_of_gt hv'
      rw [e1, e2]
    simp [BtreeBufferedData.get, hfind, hget]

/-- Channel buffer for the C2 scenario: versions 1..5 on channel `"a"`. -/
def c2Tree : FixedSizeBTree :=
  FixedSizeBTree.mk
    [(1, ⟨1, 10⟩), (2, ⟨2, 20⟩), (3, ⟨3, 30⟩), (4, ⟨4, 40⟩), (5, ⟨5, 50⟩)] 1000

/-- Multi-channel buffer for the C2 scenario. -/
def c2Buf : BtreeBufferedData := BtreeBufferedData.mk [("a", c2Tree)] 20

/-- The state `consume(("a", 3))` produces from `c2Buf`: versions 1..3
gone, 4 and 5 retained. -/
def c2BufAfter : BtreeBufferedData :=
  BtreeBufferedData.mk [("a", FixedSizeBTree.mk [(4, ⟨4, 40⟩), (5, ⟨5, 50⟩)] 1000)] 20

/-- C2 witness: consuming version 3 of channel `"a"` holding 1..5 returns
the packet stored at 3; afterwards version 2 reads as `None` and version 4
reads exactly as before. -/
theorem consume_cleanup_witness :
    (some (UntypedPacket.mk 3 30) : Option UntypedPacket) = c2Tree.get 3 ∧
    c2BufAfter.get ("a", 2) = .ok (none, c2BufAfter) ∧
    c2BufAfter.get ("a", 4) = .ok (c2Tree.get 4, c2BufAfter) := by
  have h := consume_cleanup c2Buf c2BufAfter "a" 3 c2Tree
    (some (UntypedPacket.mk 3 30)) rfl rfl
  exact ⟨h.1, h.2.1 2 (by decide), h.2.2 4 (by decide)⟩

/-! ### C7: insert on an uncreated channel -/

/-- C7: for every channel `c` that has not been created and every packet
`p`, `insert(c, p)` returns the missing-channel `InternalError` (not a
`DuplicateVersion` error) and inserts nothing — `has_version` stays
false. -/
theorem insert_missing_channel (b : BtreeBufferedData) (c : ChannelID)
    (p : UntypedPacket) (h : b.findChannel c = none) :
    b.insert c p = .error (missingChannelError c) ∧
    b.has_version c p.version = false := by
  have hv : b.has_version c p.version = false := by
    simp [BtreeBufferedData.has_version, h]
  exact ⟨by simp [BtreeBufferedData.insert, hv, h], hv⟩

/-- C7 witness: inserting into the never-created channel `"ch0"` of a
fresh buffer. -/
theorem insert_missing_channel_witness :
    (BtreeBufferedData.new 20).insert "ch0" ⟨1, 5⟩
      = .error (missingChannelError "ch0") ∧
    (BtreeBufferedData.new 20).has_version "ch0" 1 = false :=
  insert_missing_channel (BtreeBufferedData.new 20) "ch0" ⟨1, 5⟩ rfl

/-! ### C8: create_channel twice -/

/-- C8: after a successful `create_channel(c)`, a second `create_channel(c)`
returns `DuplicateChannelError` (the error path mutates nothing), and the
channel still holds the empty default buffer the first call created. -/
theorem create_channel_twice_rejected (b b1 : BtreeBufferedData) (c r : ChannelID)
    (h : b.create_channel c = .ok (r, b1)) :
    b1.create_channel c = .error (BufferError.DuplicateChannelError c) ∧
    b1.findChannel c = some FixedSizeBTree.default := by
  unfold BtreeBufferedData.create_channel at h
  by_cases hc : b.containsChannel c
  · simp [hc] at h
  · simp [hc] at h
    have hn : b.findChannel c = none :=
      findChannel_none_of_not_contains b c (by simpa using hc)
    have hb1 : b1 = b.setChannel c FixedSizeBTree.default := by
      rw [← h.2]
      simp [BtreeBufferedData.get_or_create_channel, hn]
    have hfind : b1.findChannel c = some FixedSizeBTree.default := by
      rw [hb1]
      exact findChannel_setChannel_self b c FixedSizeBTree.default
    have hcont : b1.containsChannel c = true :=
      containsChannel_of_findChannel_some b1 c FixedSizeBTree.default hfind
    exact ⟨by simp [BtreeBufferedData.create_channel, hcont], hfind⟩

/-- C8 witness: creating `"ch0"` twice on a fresh buffer of `max_size`
20. -/
theorem create_channel_twice_rejected_witness :
    (BtreeBufferedData.mk [("ch0", FixedSizeBTree.default)] 20).create_channel "ch0"
      = .error (BufferError.DuplicateChannelError "ch0") ∧
    (BtreeBufferedData.mk [("ch0", FixedSizeBTree.default)] 20).findChannel "ch0"
      = some FixedSizeBTree.default :=
  create_channel_twice_rejected (BtreeBufferedData.new 20)
    (BtreeBufferedData.mk [("ch0", FixedSizeBTree.default)] 20) "ch0" "ch0" rfl

/-! ### C10: get and consume on an uncreated channel -/

/-- C10: for every channel `c` that has not been created and every version
`v`, both `get((c, v))` and `consume((c, v))` return the missing-channel
error (never `Ok(None)`); the error paths return before mutating. -/
theorem get_consume_missing_channel (b : BtreeBufferedData) (c : ChannelID)
    (v : DataVersion) (h : b.findChannel c = none) :
    b.get (c, v) = .error (missingChannelError c) ∧
    b.consume (c, v) = .error (missingChannelError c) := by
  exact ⟨by simp [BtreeBufferedData.get, h], by simp [BtreeBufferedData.consume, h]⟩

/-- C10 witness: reading and consuming from the never-created channel
`"ch0"` of a fresh buffer. -/
theorem get_consume_missing_channel_witness :
    (BtreeBufferedData.new 20).get ("ch0", 1) = .error (missingChannelError "ch0") ∧
    (BtreeBufferedData.new 20).consume ("ch0", 1)
      = .error (missingChannelError "ch0") :=
  get_consume_missing_channel (BtreeBufferedData.new 20) "ch0" 1 rfl

/-! ### C1: create_channel ignores the multi-channel max_size -/

/-- The buffer a `max_size = 1` multi-channel buffer reaches after
`create_channel("ch0")`, `insert("ch0", v=1)` and `insert("ch0", v=2)`
(`none` if any step errors). -/
def c1State : Option BtreeBufferedData :=
  match (BtreeBufferedData.new 1).create_channel "ch0" with
  | .error _ => none
  | .ok (_, b) =>
    match b.insert "ch0" ⟨1, 10⟩ with
    | .error _ => none
    | .ok (_, b) =>
      match b.insert "ch0" ⟨2, 20⟩ with
      | .error _ => none
      | .ok (_, b) => some b

/-- C1 evaluated at the failing input: constructing the multi-channel
buffer with `max_size = 1` and creating `"ch0"` installs a per-channel
buffer with the library default capacity (1000), not 1 — and inserting
versions 1 and 2 then leaves both present, exceeding the constructed
`max_size` bound instead of evicting the smallest version. -/
theorem create_channel_ignores_max_size :
    ((BtreeBufferedData.new 1).create_channel "ch0"
      = .ok ("ch0", BtreeBufferedData.mk [("ch0", FixedSizeBTree.mk [] 1000)] 1)) ∧
    defaultMaxSize ≠ 1 ∧
    (c1State.map fun b => (b.has_version "ch0" 1, b.has_version "ch0" 2))
      = some (true, true) :=
  ⟨rfl, by decide, rfl⟩

/-! ### C3: duplicate-version rejection -/

theorem mem_insertSorted (v : DataVersion) (p : UntypedPacket)
    (l : List (DataVersion × UntypedPacket)) (x : DataVersion × UntypedPacket)
    (hx : x ∈ insertSorted v p l) : x = (v, p) ∨ x ∈ l := by
  induction l with
  | nil =>
    rw [insertSorted] at hx
    simp at hx
    exact Or.inl hx
  | cons a l ih =>
    obtain ⟨k, q⟩ := a
    rw [insertSorted] at hx
    by_cases h1 : v < k
    · rw [if_pos h1] at hx
      rcases List.mem_cons.mp hx with hx | hx
      · exact Or.inl hx
      · exact Or.inr hx
    · rw [if_neg h1] at hx
      by_cases h2 : v = k
      · have hb : (v == k) = true := beq_iff_eq.mpr h2
        rw [if_pos hb] at hx
        rcases List.mem_cons.mp hx with hx | hx
        · exact Or.inl hx
        · exact Or.inr (List.mem_cons_of_mem _ hx)
      · have hb : ¬ ((v == k) = true) := by simp [h2]
        rw [if_neg hb] at hx
        rcases List.mem_cons.mp hx with hx | hx
        · exact Or.inr (by simp [hx])
        · rcases ih hx with h3 | h3
          · exact Or.inl h3
          · exact Or.inr (List.mem_cons_of_mem _ h3)

/-- Every entry of the buffer after a single-channel `insert` is either
the inserted pair or an entry that was already there (the overflow policy
only drops entries). -/
theorem mem_insert_tree (t : FixedSizeBTree) (v : DataVersion) (p : UntypedPacket)
    (x : DataVersion × UntypedPacket) (hx : x ∈ (t.insert v p).data) :
    x = (v, p) ∨ x ∈ t.data := by
  simp only [FixedSizeBTree.insert] at hx
  by_cases hlen : t.max_size < (insertSorted v p t.data).length
  · rw [if_pos hlen] at hx
    exact mem_insertSorted v p t.data x (List.drop_subset _ _ hx)
  · rw [if_neg hlen] at hx
    exact mem_insertSorted v p t.data x hx

/-- Channel buffer for the C3 counterexample: the default capacity 1000,
already full with versions 1..1000. -/
def c3Tree : FixedSizeBTree :=
  FixedSizeBTree.mk ((List.range 1000).map (fun i => (i + 1, ⟨i + 1, 0⟩))) 1000

/-- Multi-channel buffer for the C3 counterexample. -/
def c3Buf : BtreeBufferedData := BtreeBufferedData.mk [("c", c3Tree)] 5

set_option maxRecDepth 100000 in
/-- C3 counterexample: on a created channel whose (default-capacity 1000)
buffer already holds versions 1..1000, inserting version 0 succeeds but
the overflow policy immediately evicts the smallest version — the packet
just inserted — so a second insert of the same version 0 also succeeds,
instead of failing with DuplicateVersion as the claim states. -/
theorem insert_duplicate_counterexample :
    (match c3Buf.insert "c" ⟨0, 7⟩ with
     | .ok (_, b1) => (b1.insert "c" ⟨0, 8⟩).isOk
     | .error _ => false) = true := by decide

/-- C3 amended: after `insert(c, p)` succeeds *and the inserted packet
survived the overflow policy* (its version is still present), a second
insert of a packet with the same version fails with `DuplicateVersion`
(the error path mutates nothing), and `get((c, p.version))` still returns
the first packet `p`. -/
theorem insert_duplicate_rejected (b b1 : BtreeBufferedData) (c : ChannelID)
    (p p' : UntypedPacket) (a : PacketBufferAddress)
    (hv : p'.version = p.version)
    (h : b.insert c p = .ok (a, b1))
    (hkept : b1.has_version c p.version = true) :
    b1.insert c p' = .error (BufferError.DuplicateDataVersionError (c, p.version)) ∧
    b1.get (c, p.version) = .ok (some p, b1) := by
  rw [BtreeBufferedData.insert] at h
  cases hnv : b.has_version c p.version with
  | true => rw [hnv] at h; simp at h
  | false =>
    rw [hnv] at h
    simp only [Bool.false_eq_true, if_false] at h
    cases hfc : b.findChannel c with
    | none => rw [hfc] at h; simp at h
    | some t =>
      rw [hfc] at h
      simp only [Except.ok.injEq, Prod.mk.injEq] at h
      obtain ⟨ha, hb1⟩ := h
      subst hb1
      constructor
      · rw [BtreeBufferedData.insert, hv]
        simp [hkept]
      · have hcont : (t.insert p.version p).contains_key p.version = true := by
          have hk := hkept
          rw [BtreeBufferedData.has_version, findChannel_setChannel_self] at hk
          exact hk
        have hg : (t.insert p.version p).get p.version = some p := by
          rw [FixedSizeBTree.contains_key] at hcont
          obtain ⟨x, hxmem, hxp⟩ := List.any_eq_true.mp hcont
          have hsome : ((t.insert p.version p).data.find?
              (fun kv => kv.1 == p.version)).isSome := by
            rw [List.find?_isSome]
            exact ⟨x, hxmem, hxp⟩
          obtain ⟨y, hy⟩ := Option.isSome_iff_exists.mp hsome
          have hymem : y ∈ (t.insert p.version p).data :=
            List.mem_of_find?_eq_some hy
          have hy1 : y.1 = p.version := by
            have := List.find?_some hy
            simpa using this
          rcases mem_insert_tree t p.version p y hymem with hcase | hcase
          · rw [FixedSizeBTree.get, hy, hcase]
            rfl
          · exfalso
            have hnv2 : t.contains_key p.version = false := by
              rw [BtreeBufferedData.has_version, hfc] at hnv
              exact hnv
            rw [FixedSizeBTree.contains_key] at hnv2
            have hno := List.any_eq_false.mp hnv2 y hcase
            exact hno (by simpa using hy1)
        simp [BtreeBufferedData.get, findChannel_setChannel_self, hg]

/-- Multi-channel buffer for the C3 witness: a freshly created channel
`"ch0"`. -/
def c3WBuf : BtreeBufferedData :=
  BtreeBufferedData.mk [("ch0", FixedSizeBTree.default)] 20

/-- The C3 witness buffer after `insert("ch0", v=1, 42)`. -/
def c3WAfter : BtreeBufferedData :=
  BtreeBufferedData.mk [("ch0", FixedSizeBTree.mk [(1, ⟨1, 42⟩)] 1000)] 20

/-- C3 witness: inserting version 1 on a fresh channel, then a second
packet with version 1, hits the DuplicateVersion rejection and the first
packet is still readable. -/
theorem insert_duplicate_rejected_witness :
    c3WAfter.insert "ch0" ⟨1, 43⟩
      = .error (BufferError.DuplicateDataVersionError ("ch0", 1)) ∧
    c3WAfter.get ("ch0", 1) = .ok (some ⟨1, 42⟩, c3WAfter) :=
  insert_duplicate_rejected c3WBuf c3WAfter "ch0" ⟨1, 42⟩ ⟨1, 43⟩ ("ch0", 1)
    rfl rfl rfl

/-! ### C4: processor error other than EndOfStream -/

/-- C4 counterexample: at the concrete dispatch of node `"n0"` whose
processor returns an error other than `EndOfStream`, the claim "status is
set to Terminating AND done(id) is sent on the done channel" is false: the
error arm stores `Terminating` but sends nothing. -/
theorem dispatch_other_error_counterexample :
    ¬ ((dispatch "n0" (TaskOutcome.completed (ProcessorResult.otherError "boom"))).1
        = WorkerStatus.Terminating ∧
      "n0" ∈ (dispatch "n0"
        (TaskOutcome.completed (ProcessorResult.otherError "boom"))).2) := by
  decide

/-- C4 amended: for every dispatch in which the processor returns a fatal
error other than `EndOfStream`, the worker status is set to `Terminating`
and nothing is sent on the done channel during the dispatch (`done` is
sent only for `EndOfStream`). -/
theorem dispatch_other_error_no_done (id msg : String) :
    dispatch id (TaskOutcome.completed (ProcessorResult.otherError msg))
      = (WorkerStatus.Terminating, []) := rfl

/-! ### C5: Ok and EndOfStream outcomes -/

/-- C5: for every dispatch, an `Ok` processor result sets the worker back
to `Idle` (sending nothing), and an `EndOfStream` result sets it to
`Terminating` and sends `done(id)` on the done channel. -/
theorem dispatch_ok_idle_eos_terminating (id : String) :
    dispatch id (TaskOutcome.completed ProcessorResult.ok) = (WorkerStatus.Idle, []) ∧
    dispatch id (TaskOutcome.completed ProcessorResult.endOfStream)
      = (WorkerStatus.Terminating, [id]) := ⟨rfl, rfl⟩

/-! ### C6: panic survival -/

/-- C6: for every consume-loop iteration that dispatches a work-queue item
and whose thread-pool task panics, the worker status ends `Idle` and no
done notification is sent; a subsequent iteration with another queue item
dispatches it normally (here: a successful run, ending `Idle` again), so
the node keeps processing instead of terminating. -/
theorem panic_resets_to_idle (id : String) (g : GraphStatus) (s : ConsumeState)
    (d d2 : Nat) (hg : g ≠ GraphStatus.Terminating)
    (hs : s.worker = WorkerStatus.Idle) :
    (consumeIteration id g s (some (QueuePull.item d)) TaskOutcome.panicked).worker
      = WorkerStatus.Idle ∧
    (consumeIteration id g s (some (QueuePull.item d)) TaskOutcome.panicked).done_sent
      = s.done_sent ∧
    (consumeIteration id g
        (consumeIteration id g s (some (QueuePull.item d)) TaskOutcome.panicked)
        (some (QueuePull.item d2)) (TaskOutcome.completed ProcessorResult.ok)).worker
      = WorkerStatus.Idle := by
  simp [consumeIteration, hg, hs, dispatch]

/-- C6 witness: node `"n0"` in a running graph, idle worker, panicking
task on item 0, then a successful run on item 1. -/
theorem panic_resets_to_idle_witness :
    (consumeIteration "n0" GraphStatus.Running ⟨WorkerStatus.Idle, []⟩
        (some (QueuePull.item 0)) TaskOutcome.panicked).worker = WorkerStatus.Idle ∧
    (consumeIteration "n0" GraphStatus.Running ⟨WorkerStatus.Idle, []⟩
        (some (QueuePull.item 0)) TaskOutcome.panicked).done_sent = [] ∧
    (consumeIteration "n0" GraphStatus.Running
        (consumeIteration "n0" GraphStatus.Running ⟨WorkerStatus.Idle, []⟩
          (some (QueuePull.item 0)) TaskOutcome.panicked)
        (some (QueuePull.item 1)) (TaskOutcome.completed ProcessorResult.ok)).worker
      = WorkerStatus.Idle :=
  panic_resets_to_idle "n0" GraphStatus.Running ⟨WorkerStatus.Idle, []⟩ 0 1
    (by decide) rfl

end RustedPipe
